import Mathlib

/-!
Verification of the document registry + shared node arena of `xee`
(`src/xee-xpath/src/documents.rs`).

The file under `src/` contains the `Documents` façade only.  The inner
registry (`xee_interpreter::xml::Documents` behind `DocumentsRef`) and the
`Xot` arena are collaborators whose code is not in `src/`; those parts are
modelled from the spec (sections 3–5 of `spec.md`), each such definition
marked `Modelled from the spec:` in its doc comment.  The façade operations
(`Documents.new`, `add_string`, `add_string_without_uri`, `document_node`,
`documents`, `xot`, `Default::default`) are embedded from the source.

Machine model:
* the arena (`Xot`) is an append-only list of parsed trees; a node
  identifier is an index into that list;
* the registry is an append-only list of `Document` records (optional URI +
  root node); a `DocumentHandle` is an index into that list;
* `DocumentsRef` is a runtime-borrow-checked shared cell (the Rust
  `Rc<RefCell<…>>`): it carries a borrow state, and the façade operations
  abort (`PanicOr.panic`) on an incompatible outstanding borrow;
* the XML parser is out of scope for the spec, so every operation is
  parameterised by a parse function `String → Option XmlTree`.
-/

namespace Xee

/-- A parsed XML tree: element name plus the list of child trees.  The
parser producing these is an external collaborator; the type only needs to
support structural equality. -/
inductive XmlTree : Type where
  | elem (name : String) (children : List XmlTree)


/-- A node identifier: a per-arena index, stable across insertions. -/
abbrev Node : Type := Nat

/-- An opaque copyable handle naming one `Document` within a registry. -/
abbrev DocumentHandle : Type := Nat

/-- Modelled from the spec: the `Xot` arena (not under `src/`). It owns all
tree nodes of every document; nodes are appended to a growable backing store
and referenced only by index, so growth never invalidates prior
identifiers (spec §3 "Node Arena", §9 "arena-and-index pattern"). -/
structure Xot where
  nodes : List XmlTree


/-- `Xot::new()`: the empty arena. -/
def Xot.new : Xot := ⟨[]⟩

/-- Modelled from the spec: the parser/arena collaborator
`parse_into(arena, text) -> root node | ParseError` (spec §6).  On success
the parsed tree is appended to the arena and the fresh root identifier is
returned; on failure the arena is untouched.  The parse function itself is
out of scope and is a parameter. -/
def parse_into (parse : String → Option XmlTree) (xot : Xot) (text : String) :
    Option (Xot × Node) :=
  match parse text with
  | none => none
  | some t => some (⟨xot.nodes ++ [t]⟩, xot.nodes.length)

/-- Modelled from the spec: one registered document — its optional URI and
the root node of its tree in the arena (spec §3 "Document"). -/
structure Document where
  uri : Option String
  root : Node


/-- Modelled from the spec: the document registry
(`xee_interpreter::xml::Documents`, not under `src/`) — the append-only
store of `Document`s; a handle is an index into `docs` (spec §3
"Document Registry"). -/
structure Registry where
  docs : List Document


/-- Find the handle of the first document bound to URI `u`, walking the
document list with its index. -/
def Registry.findByUriAux (u : String) : List Document → Nat → Option DocumentHandle
  | [], _ => none
  | doc :: rest, i =>
    if doc.uri = some u then some i else Registry.findByUriAux u rest (i + 1)

/-- Lookup by URI: the handle of the document bound to `u`, if any. -/
def Registry.findByUri (reg : Registry) (u : String) : Option DocumentHandle :=
  Registry.findByUriAux u reg.docs 0

/-- The error surfaced when processing of the XML document goes wrong
(the `DocumentsError` wrapping a parse failure). -/
inductive DocumentsError where
  | parseError


/-- Modelled from the spec: `Registry.add` / inner
`xee_interpreter::xml::Documents::add_string` (spec §4.1): if `uri` is
present and already bound, return the existing handle without reparsing or
mutating; if absent, always parse and register a fresh anonymous document;
if present and unbound, parse, bind, and return the fresh handle; a parse
failure surfaces as an error and mutates nothing. -/
def Registry.add_string (parse : String → Option XmlTree) (reg : Registry)
    (xot : Xot) (uri : Option String) (xml : String) :
    Except DocumentsError (Registry × Xot × DocumentHandle) :=
  match uri with
  | some u =>
    match reg.findByUri u with
    | some h => .ok (reg, xot, h)
    | none =>
      match parse_into parse xot xml with
      | none => .error .parseError
      | some (xot2, root) =>
        .ok (⟨reg.docs ++ [⟨some u, root⟩]⟩, xot2, reg.docs.length)
  | none =>
    match parse_into parse xot xml with
    | none => .error .parseError
    | some (xot2, root) =>
      .ok (⟨reg.docs ++ [⟨none, root⟩]⟩, xot2, reg.docs.length)

/-- Modelled from the spec: `Registry.node_for(handle)` / inner
`get_node_by_handle`: the root node of the document named by `handle`, or
`none` when the handle is unknown (spec §4.1). -/
def Registry.get_node_by_handle (reg : Registry) (handle : DocumentHandle) :
    Option Node :=
  (reg.docs.get? handle).map Document.root

/-- Modelled from the spec: the dynamic borrow state of the shared registry
cell (spec §5): free, shared-read by `n` readers, or exclusively borrowed. -/
inductive BorrowState where
  | free
  | reading (n : Nat)
  | writing


/-- Modelled from the spec: `DocumentsRef` (not under `src/`), the
shared-ownership handle to the registry with runtime-checked borrow
discipline (spec §3 "Shared ownership", §5). -/
structure DocumentsRef where
  value : Registry
  borrowState : BorrowState


/-- `DocumentsRef::new()`: an empty registry, no outstanding borrow. -/
def DocumentsRef.new : DocumentsRef := ⟨⟨[]⟩, .free⟩

/-- Outcome of an operation that may abort on a borrow-discipline
violation: `panic` is the fatal, non-recoverable stop (the Rust `RefCell`
borrow panic); `ret` is normal completion. -/
inductive PanicOr (α : Type) where
  | panic
  | ret (a : α)


/-- The `Documents` collection from `src/xee-xpath/src/documents.rs`: the
`Xot` arena holding all nodes plus the shared reference to the underlying
registry. -/
structure Documents where
  xot : Xot
  documents : DocumentsRef


/-- `Documents::new()`: a new empty collection of documents. -/
def Documents.new : Documents := ⟨Xot.new, DocumentsRef.new⟩

/-- `Documents::add_string(uri, xml)`: `self.documents.borrow_mut()
.add_string(&mut self.xot, Some(uri), xml)`.  `borrow_mut` aborts unless no
borrow is outstanding; otherwise the inner registry `add_string` runs and
the borrow is released. -/
def Documents.add_string (parse : String → Option XmlTree) (d : Documents)
    (uri : String) (xml : String) :
    PanicOr (Documents × Except DocumentsError DocumentHandle) :=
  match d.documents.borrowState with
  | .free =>
    match Registry.add_string parse d.documents.value d.xot (some uri) xml with
    | .ok (reg, xot2, h) => .ret (⟨xot2, ⟨reg, .free⟩⟩, .ok h)
    | .error e => .ret (d, .error e)
  | _ => .panic

/-- `Documents::add_string_without_uri(xml)`: `self.documents.borrow_mut()
.add_string(&mut self.xot, None, xml)`. -/
def Documents.add_string_without_uri (parse : String → Option XmlTree)
    (d : Documents) (xml : String) :
    PanicOr (Documents × Except DocumentsError DocumentHandle) :=
  match d.documents.borrowState with
  | .free =>
    match Registry.add_string parse d.documents.value d.xot none xml with
    | .ok (reg, xot2, h) => .ret (⟨xot2, ⟨reg, .free⟩⟩, .ok h)
    | .error e => .ret (d, .error e)
  | _ => .panic

/-- `Documents::document_node(handle)`:
`self.documents.borrow().get_node_by_handle(handle)`.  `borrow` aborts only
while an exclusive borrow is outstanding; it takes `&self` and mutates
nothing. -/
def Documents.document_node (d : Documents) (handle : DocumentHandle) :
    PanicOr (Option Node) :=
  match d.documents.borrowState with
  | .writing => .panic
  | _ => .ret (d.documents.value.get_node_by_handle handle)

/-- `impl Default for Documents`: `Self::new()`. -/
def Documents.default : Documents := Documents.new

/-- One call against the collection, for reasoning about operation
sequences: the two loaders, `document_node`, and the two shared read
accessors `documents()` and `xot()`. -/
inductive Op where
  | addString (uri xml : String)
  | addStringWithoutUri (xml : String)
  | documentNode (handle : DocumentHandle)
  | documentsRead
  | xotRead


/-- The value an `Op` returns to the caller. -/
inductive OpResult where
  | handleResult (r : Except DocumentsError DocumentHandle)
  | nodeResult (n : Option Node)
  | documentsResult (r : DocumentsRef)
  | xotResult (x : Xot)


/-- Run one operation against the collection, returning its result and the
collection afterwards.  `documents()` and `xot()` are the source's `&self`
field accessors, so they return the field and leave the state unchanged. -/
def Documents.run (parse : String → Option XmlTree) (d : Documents) (op : Op) :
    PanicOr (OpResult × Documents) :=
  match op with
  | .addString uri xml =>
    match d.add_string parse uri xml with
    | .panic => .panic
    | .ret (d2, r) => .ret (.handleResult r, d2)
  | .addStringWithoutUri xml =>
    match d.add_string_without_uri parse xml with
    | .panic => .panic
    | .ret (d2, r) => .ret (.handleResult r, d2)
  | .documentNode h =>
    match d.document_node h with
    | .panic => .panic
    | .ret n => .ret (.nodeResult n, d)
  | .documentsRead => .ret (.documentsResult d.documents, d)
  | .xotRead => .ret (.xotResult d.xot, d)

/-- The collection after one operation (a panic aborts everything, so the
state is the one the operation found). -/
def Documents.applyOp (parse : String → Option XmlTree) (d : Documents)
    (op : Op) : Documents :=
  match d.run parse op with
  | .panic => d
  | .ret (_, d2) => d2

/-- The collection after a sequence of operations. -/
def Documents.applyOps (parse : String → Option XmlTree) (d : Documents)
    (ops : List Op) : Documents :=
  ops.foldl (Documents.applyOp parse) d

/-- Whether an `Op` is one of the three shared-reference read accessors. -/
def Op.reader : Op → Prop
  | .documentNode _ => True
  | .documentsRead => True
  | .xotRead => True
  | _ => False

/-- A tiny concrete parse function for evaluating the model on closed
inputs in witnesses. -/
def parseEx : String → Option XmlTree :=
  fun s =>
    if s = "<a/>" then some (XmlTree.elem "a" [])
    else if s = "<b/>" then some (XmlTree.elem "b" [])
    else none


/-! ## Helper lemmas about the model -/

/-- The collection after a fresh document parsed as `tr` has been loaded
(optionally bound to a URI): the tree is appended to the arena and the new
document record to the registry, and the borrow is released. -/
def Documents.mkLoaded (d : Documents) (uri : Option String) (tr : XmlTree) :
    Documents :=
  ⟨⟨d.xot.nodes ++ [tr]⟩,
   ⟨⟨d.documents.value.docs ++ [⟨uri, d.xot.nodes.length⟩]⟩, .free⟩⟩

theorem findByUriAux_nil (u : String) (i : Nat) :
    Registry.findByUriAux u [] i = none := rfl

theorem findByUriAux_cons (u : String) (doc : Document) (rest : List Document)
    (i : Nat) :
    Registry.findByUriAux u (doc :: rest) i =
      if doc.uri = some u then some i
      else Registry.findByUriAux u rest (i + 1) := rfl

theorem findByUriAux_append_none (u : String) (l1 l2 : List Document) (i : Nat)
    (h : Registry.findByUriAux u l1 i = none) :
    Registry.findByUriAux u (l1 ++ l2) i =
      Registry.findByUriAux u l2 (i + l1.length) := by
  induction l1 generalizing i with
  | nil => simp [findByUriAux_nil]
  | cons doc rest ih =>
    rw [findByUriAux_cons] at h
    rw [List.cons_append, findByUriAux_cons]
    by_cases hu : doc.uri = some u
    · simp [hu] at h
    · simp only [hu, if_false] at h ⊢
      rw [ih _ h]
      congr 1
      simp [List.length_cons]
      omega

theorem findByUriAux_append_some (u : String) (l1 l2 : List Document) (i : Nat)
    (h1 : DocumentHandle) (h : Registry.findByUriAux u l1 i = some h1) :
    Registry.findByUriAux u (l1 ++ l2) i = some h1 := by
  induction l1 generalizing i with
  | nil => simp [findByUriAux_nil] at h
  | cons doc rest ih =>
    rw [findByUriAux_cons] at h
    rw [List.cons_append, findByUriAux_cons]
    by_cases hu : doc.uri = some u
    · simpa [hu] using h
    · simp only [hu, if_false] at h ⊢
      exact ih _ h

/-- After binding URI `u` at the end of a document list in which `u` was
unbound, the lookup finds exactly the new entry. -/
theorem findByUri_after_bind (u : String) (l : List Document) (root : Node)
    (h : Registry.findByUriAux u l 0 = none) :
    Registry.findByUriAux u (l ++ [⟨some u, root⟩]) 0 = some l.length := by
  rw [findByUriAux_append_none u l _ 0 h]
  simp [Registry.findByUriAux]

/-! ## Characterisation of the façade operations, case by case -/

theorem add_string_busy (parse : String → Option XmlTree) (d : Documents)
    (u xml : String) (hb : d.documents.borrowState ≠ .free) :
    d.add_string parse u xml = .panic := by
  unfold Documents.add_string
  cases h : d.documents.borrowState with
  | free => exact absurd h hb
  | reading n => rfl
  | writing => rfl

theorem add_string_without_uri_busy (parse : String → Option XmlTree)
    (d : Documents) (xml : String) (hb : d.documents.borrowState ≠ .free) :
    d.add_string_without_uri parse xml = .panic := by
  unfold Documents.add_string_without_uri
  cases h : d.documents.borrowState with
  | free => exact absurd h hb
  | reading n => rfl
  | writing => rfl

theorem add_string_bound (parse : String → Option XmlTree) (d : Documents)
    (u xml : String) (h1 : DocumentHandle)
    (hfree : d.documents.borrowState = .free)
    (hf : d.documents.value.findByUri u = some h1) :
    d.add_string parse u xml = .ret (d, .ok h1) := by
  unfold Documents.add_string Registry.add_string
  cases d with
  | mk xot docs =>
    cases docs with
    | mk v st =>
      cases hfree
      simp only at hf
      simp [hf]

theorem add_string_unbound_parsed (parse : String → Option XmlTree)
    (d : Documents) (u xml : String) (tr : XmlTree)
    (hfree : d.documents.borrowState = .free)
    (hf : d.documents.value.findByUri u = none)
    (hp : parse xml = some tr) :
    d.add_string parse u xml =
      .ret (d.mkLoaded (some u) tr, .ok d.documents.value.docs.length) := by
  unfold Documents.add_string Registry.add_string parse_into
  simp only [hfree, hf, hp]
  rfl

theorem add_string_unbound_parse_fail (parse : String → Option XmlTree)
    (d : Documents) (u xml : String)
    (hfree : d.documents.borrowState = .free)
    (hf : d.documents.value.findByUri u = none)
    (hp : parse xml = none) :
    d.add_string parse u xml = .ret (d, .error .parseError) := by
  unfold Documents.add_string Registry.add_string parse_into
  simp only [hfree, hf, hp]

theorem add_string_without_uri_parsed (parse : String → Option XmlTree)
    (d : Documents) (xml : String) (tr : XmlTree)
    (hfree : d.documents.borrowState = .free)
    (hp : parse xml = some tr) :
    d.add_string_without_uri parse xml =
      .ret (d.mkLoaded none tr, .ok d.documents.value.docs.length) := by
  unfold Documents.add_string_without_uri Registry.add_string parse_into
  simp only [hfree, hp]
  rfl

theorem add_string_without_uri_parse_fail (parse : String → Option XmlTree)
    (d : Documents) (xml : String)
    (hfree : d.documents.borrowState = .free)
    (hp : parse xml = none) :
    d.add_string_without_uri parse xml = .ret (d, .error .parseError) := by
  unfold Documents.add_string_without_uri Registry.add_string parse_into
  simp only [hfree, hp]

theorem add_string_ok_inv (parse : String → Option XmlTree) (d d1 : Documents)
    (u xml : String) (h1 : DocumentHandle)
    (hok : d.add_string parse u xml = .ret (d1, .ok h1)) :
    d.documents.borrowState = .free ∧
    ((d.documents.value.findByUri u = some h1 ∧ d1 = d) ∨
     (d.documents.value.findByUri u = none ∧ ∃ tr, parse xml = some tr ∧
       h1 = d.documents.value.docs.length ∧ d1 = d.mkLoaded (some u) tr)) := by
  by_cases hfree : d.documents.borrowState = .free
  · refine ⟨hfree, ?_⟩
    cases hf : d.documents.value.findByUri u with
    | some h2 =>
      rw [add_string_bound parse d u xml h2 hfree hf] at hok
      simp only [PanicOr.ret.injEq, Prod.mk.injEq, Except.ok.injEq] at hok
      exact Or.inl ⟨hok.2 ▸ rfl, hok.1.symm⟩
    | none =>
      cases hp : parse xml with
      | none =>
        rw [add_string_unbound_parse_fail parse d u xml hfree hf hp] at hok
        simp at hok
      | some tr =>
        rw [add_string_unbound_parsed parse d u xml tr hfree hf hp] at hok
        simp only [PanicOr.ret.injEq, Prod.mk.injEq, Except.ok.injEq] at hok
        exact Or.inr ⟨rfl, tr, rfl, hok.2.symm, hok.1.symm⟩
  · rw [add_string_busy parse d u xml hfree] at hok
    exact PanicOr.noConfusion hok

theorem add_string_error_inv (parse : String → Option XmlTree) (d d1 : Documents)
    (u xml : String) (e : DocumentsError)
    (herr : d.add_string parse u xml = .ret (d1, .error e)) :
    d.documents.borrowState = .free ∧ d.documents.value.findByUri u = none ∧
    parse xml = none ∧ d1 = d ∧ e = .parseError := by
  by_cases hfree : d.documents.borrowState = .free
  · cases hf : d.documents.value.findByUri u with
    | some h2 =>
      rw [add_string_bound parse d u xml h2 hfree hf] at herr
      simp at herr
    | none =>
      cases hp : parse xml with
      | none =>
        rw [add_string_unbound_parse_fail parse d u xml hfree hf hp] at herr
        simp only [PanicOr.ret.injEq, Prod.mk.injEq, Except.error.injEq] at herr
        refine ⟨hfree, rfl, rfl, herr.1.symm, ?_⟩
        cases e
        rfl
      | some tr =>
        rw [add_string_unbound_parsed parse d u xml tr hfree hf hp] at herr
        simp at herr
  · rw [add_string_busy parse d u xml hfree] at herr
    exact PanicOr.noConfusion herr

theorem add_string_without_uri_ok_inv (parse : String → Option XmlTree)
    (d d1 : Documents) (xml : String) (h1 : DocumentHandle)
    (hok : d.add_string_without_uri parse xml = .ret (d1, .ok h1)) :
    d.documents.borrowState = .free ∧ ∃ tr, parse xml = some tr ∧
      h1 = d.documents.value.docs.length ∧ d1 = d.mkLoaded none tr := by
  by_cases hfree : d.documents.borrowState = .free
  · cases hp : parse xml with
    | none =>
      rw [add_string_without_uri_parse_fail parse d xml hfree hp] at hok
      simp at hok
    | some tr =>
      rw [add_string_without_uri_parsed parse d xml tr hfree hp] at hok
      simp only [PanicOr.ret.injEq, Prod.mk.injEq, Except.ok.injEq] at hok
      exact ⟨hfree, tr, rfl, hok.2.symm, hok.1.symm⟩
  · rw [add_string_without_uri_busy parse d xml hfree] at hok
    exact PanicOr.noConfusion hok

theorem document_node_not_writing (d : Documents) (handle : DocumentHandle)
    (hb : d.documents.borrowState ≠ .writing) :
    d.document_node handle =
      .ret (d.documents.value.get_node_by_handle handle) := by
  unfold Documents.document_node
  cases h : d.documents.borrowState with
  | free => rfl
  | reading n => rfl
  | writing => exact absurd h hb

theorem document_node_writing (d : Documents) (handle : DocumentHandle)
    (hb : d.documents.borrowState = .writing) :
    d.document_node handle = .panic := by
  unfold Documents.document_node
  rw [hb]

theorem document_node_ret_inv (d : Documents) (handle : DocumentHandle)
    (r : Option Node) (h : d.document_node handle = .ret r) :
    d.documents.borrowState ≠ .writing ∧
    r = d.documents.value.get_node_by_handle handle := by
  by_cases hb : d.documents.borrowState = .writing
  · rw [document_node_writing d handle hb] at h
    exact PanicOr.noConfusion h
  · rw [document_node_not_writing d handle hb] at h
    simp only [PanicOr.ret.injEq] at h
    exact ⟨hb, h.symm⟩

/-! ## Growth: what any operation may do to the collection -/

/-- `Grows d d2`: `d2` is `d` with zero or more documents appended to the
registry and zero or more trees appended to the arena, the borrow state
unchanged.  Every operation of the collection only grows it. -/
def Grows (d d2 : Documents) : Prop :=
  d2.documents.borrowState = d.documents.borrowState ∧
  (∃ ds, d2.documents.value.docs = d.documents.value.docs ++ ds) ∧
  (∃ ns, d2.xot.nodes = d.xot.nodes ++ ns)

theorem grows_self (d : Documents) : Grows d d :=
  ⟨rfl, ⟨[], by simp⟩, ⟨[], by simp⟩⟩

theorem grows_trans (d1 d2 d3 : Documents) (h12 : Grows d1 d2)
    (h23 : Grows d2 d3) : Grows d1 d3 := by
  obtain ⟨hb12, ⟨ds12, hd12⟩, ⟨ns12, hn12⟩⟩ := h12
  obtain ⟨hb23, ⟨ds23, hd23⟩, ⟨ns23, hn23⟩⟩ := h23
  exact ⟨hb23.trans hb12,
    ⟨ds12 ++ ds23, by rw [hd23, hd12, List.append_assoc]⟩,
    ⟨ns12 ++ ns23, by rw [hn23, hn12, List.append_assoc]⟩⟩

theorem grows_mkLoaded (d : Documents) (uri : Option String) (tr : XmlTree)
    (hfree : d.documents.borrowState = .free) :
    Grows d (d.mkLoaded uri tr) :=
  ⟨by rw [hfree]; rfl,
   ⟨[⟨uri, d.xot.nodes.length⟩], rfl⟩, ⟨[tr], rfl⟩⟩

theorem add_string_ret_grows (parse : String → Option XmlTree)
    (d : Documents) (u xml : String) (d2 : Documents)
    (r : Except DocumentsError DocumentHandle)
    (h : d.add_string parse u xml = .ret (d2, r)) : Grows d d2 := by
  cases r with
  | ok h1 =>
    obtain ⟨hfree, hca⟩ := add_string_ok_inv parse d d2 u xml h1 h
    cases hca with
    | inl hc => exact hc.2 ▸ grows_self d
    | inr hc =>
      obtain ⟨-, tr, -, -, hd2⟩ := hc
      exact hd2 ▸ grows_mkLoaded d (some u) tr hfree
  | error e =>
    obtain ⟨-, -, -, hd2, -⟩ := add_string_error_inv parse d d2 u xml e h
    exact hd2 ▸ grows_self d

theorem add_string_without_uri_ret_grows (parse : String → Option XmlTree)
    (d : Documents) (xml : String) (d2 : Documents)
    (r : Except DocumentsError DocumentHandle)
    (h : d.add_string_without_uri parse xml = .ret (d2, r)) : Grows d d2 := by
  cases r with
  | ok h1 =>
    obtain ⟨hfree, tr, -, -, hd2⟩ :=
      add_string_without_uri_ok_inv parse d d2 xml h1 h
    exact hd2 ▸ grows_mkLoaded d none tr hfree
  | error e =>
    by_cases hfree : d.documents.borrowState = .free
    · cases hp : parse xml with
      | none =>
        rw [add_string_without_uri_parse_fail parse d xml hfree hp] at h
        simp only [PanicOr.ret.injEq, Prod.mk.injEq] at h
        exact h.1 ▸ grows_self d
      | some tr =>
        rw [add_string_without_uri_parsed parse d xml tr hfree hp] at h
        simp at h
    · rw [add_string_without_uri_busy parse d xml hfree] at h
      exact PanicOr.noConfusion h

theorem run_ret_grows (parse : String → Option XmlTree) (d : Documents)
    (op : Op) (r : OpResult) (d2 : Documents)
    (h : d.run parse op = .ret (r, d2)) : Grows d d2 := by
  cases op with
  | addString u xml =>
    simp only [Documents.run] at h
    cases hc : d.add_string parse u xml with
    | panic => rw [hc] at h; exact PanicOr.noConfusion h
    | ret pair =>
      obtain ⟨d3, r3⟩ := pair
      rw [hc] at h
      simp only [PanicOr.ret.injEq, Prod.mk.injEq] at h
      exact h.2 ▸ add_string_ret_grows parse d u xml d3 r3 hc
  | addStringWithoutUri xml =>
    simp only [Documents.run] at h
    cases hc : d.add_string_without_uri parse xml with
    | panic => rw [hc] at h; exact PanicOr.noConfusion h
    | ret pair =>
      obtain ⟨d3, r3⟩ := pair
      rw [hc] at h
      simp only [PanicOr.ret.injEq, Prod.mk.injEq] at h
      exact h.2 ▸ add_string_without_uri_ret_grows parse d xml d3 r3 hc
  | documentNode hd =>
    simp only [Documents.run] at h
    cases hc : d.document_node hd with
    | panic => rw [hc] at h; exact PanicOr.noConfusion h
    | ret n =>
      rw [hc] at h
      simp only [PanicOr.ret.injEq, Prod.mk.injEq] at h
      exact h.2 ▸ grows_self d
  | documentsRead =>
    simp only [Documents.run] at h
    simp only [PanicOr.ret.injEq, Prod.mk.injEq] at h
    exact h.2 ▸ grows_self d
  | xotRead =>
    simp only [Documents.run] at h
    simp only [PanicOr.ret.injEq, Prod.mk.injEq] at h
    exact h.2 ▸ grows_self d

theorem grows_applyOp (parse : String → Option XmlTree) (d : Documents)
    (op : Op) : Grows d (d.applyOp parse op) := by
  unfold Documents.applyOp
  cases hr : d.run parse op with
  | panic => exact grows_self d
  | ret pair =>
    obtain ⟨r, d2⟩ := pair
    exact run_ret_grows parse d op r d2 hr

theorem grows_applyOps (parse : String → Option XmlTree) (d : Documents)
    (ops : List Op) : Grows d (d.applyOps parse ops) := by
  induction ops generalizing d with
  | nil => exact grows_self d
  | cons op rest ih =>
    exact grows_trans d (d.applyOp parse op) _
      (grows_applyOp parse d op) (ih (d.applyOp parse op))

/-- A handle that resolves keeps resolving to the same node as the
collection grows. -/
theorem document_node_grows (d d2 : Documents) (handle : DocumentHandle)
    (n : Node) (hg : Grows d d2)
    (hn : d.document_node handle = .ret (some n)) :
    d2.document_node handle = .ret (some n) := by
  obtain ⟨hb, ⟨ds, hd⟩, -⟩ := hg
  obtain ⟨hw, hr⟩ := document_node_ret_inv d handle (some n) hn
  have hw2 : d2.documents.borrowState ≠ .writing := by rw [hb]; exact hw
  rw [document_node_not_writing d2 handle hw2]
  unfold Registry.get_node_by_handle at hr ⊢
  rw [hd]
  have hlt : handle < d.documents.value.docs.length := by
    cases hg : d.documents.value.docs.get? handle with
    | none => rw [hg] at hr; simp at hr
    | some doc =>
      rw [List.get?_eq_some] at hg
      exact hg.1
  rw [List.get?_append hlt, ← hr]

/-- If URI `u` is found at handle `h` starting the walk at index `i`, then
`h` is a valid index: `i ≤ h` and `h - i` is inside the list. -/
theorem findByUriAux_some_lt (u : String) (l : List Document) (i : Nat)
    (h : Nat) (hf : Registry.findByUriAux u l i = some h) :
    i ≤ h ∧ h - i < l.length := by
  induction l generalizing i with
  | nil => rw [findByUriAux_nil] at hf; exact Option.noConfusion hf
  | cons doc rest ih =>
    rw [findByUriAux_cons] at hf
    by_cases hu : doc.uri = some u
    · simp only [hu, if_true] at hf
      obtain rfl : i = h := Option.some.inj hf
      simp
    · simp only [hu, if_false] at hf
      have hrec := ih (i + 1) hf
      simp only [List.length_cons]
      omega

/-- A URI lookup that finds handle `h` names a valid registry slot. -/
theorem findByUri_some_lt (reg : Registry) (u : String) (h : DocumentHandle)
    (hf : reg.findByUri u = some h) : h < reg.docs.length := by
  obtain ⟨-, hlt⟩ := findByUriAux_some_lt u reg.docs 0 h hf
  simpa using hlt

/-! ## The claims -/

/-- C1: Loading under an already-bound URI is idempotent.  Starting from a
collection in which URI `u` is unbound, a successful `add_string u t1`
yields a collection `d1` and handle `h1` such that a subsequent
`add_string u t2` — under an arbitrary parse function `parse2`, which shows
the second text is never parsed — returns the very same handle `h1` and the
unchanged collection `d1` (no arena or registry mutation), while
`document_node h1` still resolves to a node holding the tree parsed from
`t1`. -/
theorem C1_add_string_idempotent (parse parse2 : String → Option XmlTree)
    (d d1 : Documents) (u t1 t2 : String) (h1 : DocumentHandle)
    (hunb : d.documents.value.findByUri u = none)
    (hload : d.add_string parse u t1 = .ret (d1, .ok h1)) :
    d1.add_string parse2 u t2 = .ret (d1, .ok h1) ∧
    ∃ tr n, parse t1 = some tr ∧ d1.document_node h1 = .ret (some n) ∧
      d1.xot.nodes.get? n = some tr := by
  obtain ⟨hfree, hca⟩ := add_string_ok_inv parse d d1 u t1 h1 hload
  cases hca with
  | inl hc =>
    rw [hunb] at hc
    exact Option.noConfusion hc.1
  | inr hc =>
    obtain ⟨-, tr, hp, rfl, rfl⟩ := hc
    have hfree1 : (d.mkLoaded (some u) tr).documents.borrowState = .free := rfl
    have hf1 : (d.mkLoaded (some u) tr).documents.value.findByUri u =
        some d.documents.value.docs.length := by
      show Registry.findByUriAux u
        (d.documents.value.docs ++ [(⟨some u, d.xot.nodes.length⟩ : Document)]) 0 =
        some d.documents.value.docs.length
      exact findByUri_after_bind u d.documents.value.docs d.xot.nodes.length hunb
    refine ⟨add_string_bound parse2 (d.mkLoaded (some u) tr) u t2
      d.documents.value.docs.length hfree1 hf1, tr, d.xot.nodes.length, hp,
      ?_, ?_⟩
    · rw [document_node_not_writing _ _
        (fun hx => BorrowState.noConfusion (hfree1 ▸ hx))]
      show PanicOr.ret (((d.documents.value.docs ++
        [(⟨some u, d.xot.nodes.length⟩ : Document)]).get?
          d.documents.value.docs.length).map Document.root) = _
      rw [List.get?_concat_length]
      rfl
    · show (d.xot.nodes ++ [tr]).get? d.xot.nodes.length = some tr
      exact List.get?_concat_length _ _

/-- C2: Anonymous loads are never deduplicated.  From a quiescent
collection, two successive `add_string_without_uri` calls on the same text
`t` (parsed as `tr`) both succeed and return distinct handles resolving to
distinct root nodes whose arena slots hold the same (structurally equal)
tree `tr`. -/
theorem C2_anonymous_loads_distinct (parse : String → Option XmlTree)
    (d : Documents) (t : String) (tr : XmlTree)
    (hfree : d.documents.borrowState = .free)
    (hp : parse t = some tr) :
    ∃ d1 d2 h1 h2 n1 n2,
      d.add_string_without_uri parse t = .ret (d1, .ok h1) ∧
      d1.add_string_without_uri parse t = .ret (d2, .ok h2) ∧
      h1 ≠ h2 ∧
      d2.document_node h1 = .ret (some n1) ∧
      d2.document_node h2 = .ret (some n2) ∧
      n1 ≠ n2 ∧
      d2.xot.nodes.get? n1 = some tr ∧
      d2.xot.nodes.get? n2 = some tr := by
  refine ⟨d.mkLoaded none tr, (d.mkLoaded none tr).mkLoaded none tr,
    d.documents.value.docs.length, d.documents.value.docs.length + 1,
    d.xot.nodes.length, d.xot.nodes.length + 1,
    add_string_without_uri_parsed parse d t tr hfree hp, ?_, ?_, ?_, ?_, ?_,
    ?_, ?_⟩
  · rw [add_string_without_uri_parsed parse (d.mkLoaded none tr) t tr rfl hp]
    simp [Documents.mkLoaded]
  · exact Nat.ne_of_lt (Nat.lt_succ_self _)
  · rw [document_node_not_writing _ _ (fun hx => BorrowState.noConfusion hx)]
    show PanicOr.ret ((((d.documents.value.docs ++
      [(⟨none, d.xot.nodes.length⟩ : Document)]) ++
      [(⟨none, (d.xot.nodes ++ [tr]).length⟩ : Document)]).get?
        d.documents.value.docs.length).map Document.root) = _
    rw [List.get?_append (by simp), List.get?_concat_length]
    rfl
  · rw [document_node_not_writing _ _ (fun hx => BorrowState.noConfusion hx)]
    show PanicOr.ret ((((d.documents.value.docs ++
      [(⟨none, d.xot.nodes.length⟩ : Document)]) ++
      [(⟨none, (d.xot.nodes ++ [tr]).length⟩ : Document)]).get?
        (d.documents.value.docs.length + 1)).map Document.root) = _
    have hlen : (d.documents.value.docs ++
        [(⟨none, d.xot.nodes.length⟩ : Document)] : List Document).length =
        d.documents.value.docs.length + 1 := by simp
    rw [← hlen, List.get?_concat_length]
    show PanicOr.ret (some ((d.xot.nodes ++ [tr]).length)) = _
    rw [List.length_append]
    rfl
  · exact Nat.ne_of_lt (Nat.lt_succ_self _)
  · show ((d.xot.nodes ++ [tr]) ++ [tr]).get? d.xot.nodes.length = some tr
    rw [List.get?_append (by simp), List.get?_concat_length]
  · show ((d.xot.nodes ++ [tr]) ++ [tr]).get? (d.xot.nodes.length + 1) =
      some tr
    have hlen : (d.xot.nodes ++ [tr]).length = d.xot.nodes.length + 1 := by
      simp
    rw [← hlen, List.get?_concat_length]

/-- C3: A failed parse is atomic.  If `add_string u bad` returns an error,
the collection is returned unchanged and `u` is (still) unbound; a
subsequent `add_string u good` with parseable text succeeds, allocates the
fresh handle, and binds `u` to it. -/
theorem C3_failed_parse_atomic (parse : String → Option XmlTree)
    (d d1 : Documents) (u bad : String) (e : DocumentsError)
    (herr : d.add_string parse u bad = .ret (d1, .error e)) :
    d1 = d ∧
    d.documents.value.findByUri u = none ∧
    ∀ good tr, parse good = some tr →
      d1.add_string parse u good =
        .ret (d1.mkLoaded (some u) tr, .ok d1.documents.value.docs.length) ∧
      (d1.mkLoaded (some u) tr).documents.value.findByUri u =
        some d1.documents.value.docs.length := by
  obtain ⟨hfree, hunb, -, hd1, -⟩ :=
    add_string_error_inv parse d d1 u bad e herr
  rw [hd1]
  refine ⟨rfl, hunb, fun good tr hgood => ⟨?_, ?_⟩⟩
  · exact add_string_unbound_parsed parse d u good tr hfree hunb hgood
  · show Registry.findByUriAux u
      (d.documents.value.docs ++ [(⟨some u, d.xot.nodes.length⟩ : Document)]) 0 =
      some d.documents.value.docs.length
    exact findByUri_after_bind u d.documents.value.docs d.xot.nodes.length hunb

/-- C4: Issued handles stay valid.  A handle returned by a prior successful
`add_string` or `add_string_without_uri` keeps resolving through
`document_node` to a present root node (never `none`) after any later
sequence of operations on the collection. -/
theorem C4_issued_handles_stay_valid (parse : String → Option XmlTree)
    (d0 d : Documents) (u xml : String) (handle : DocumentHandle)
    (ops : List Op)
    (hload : d0.add_string parse u xml = .ret (d, .ok handle) ∨
             d0.add_string_without_uri parse xml = .ret (d, .ok handle)) :
    ∃ n, (d.applyOps parse ops).document_node handle = .ret (some n) := by
  have hres : ∃ n, d.document_node handle = .ret (some n) := by
    cases hload with
    | inl hl =>
      obtain ⟨hfree, hca⟩ := add_string_ok_inv parse d0 d u xml handle hl
      cases hca with
      | inl hc =>
        obtain ⟨hf, hd⟩ := hc
        rw [hd]
        have hlt := findByUri_some_lt d0.documents.value u handle hf
        rw [document_node_not_writing d0 handle
          (fun hx => BorrowState.noConfusion (hfree ▸ hx))]
        refine ⟨(d0.documents.value.docs.get ⟨handle, hlt⟩).root, ?_⟩
        unfold Registry.get_node_by_handle
        rw [List.get?_eq_get hlt]
        rfl
      | inr hc =>
        obtain ⟨-, tr, -, hh, hd⟩ := hc
        rw [hd, hh]
        rw [document_node_not_writing _ _
          (fun hx => BorrowState.noConfusion hx)]
        refine ⟨d0.xot.nodes.length, ?_⟩
        show PanicOr.ret (((d0.documents.value.docs ++
          [(⟨some u, d0.xot.nodes.length⟩ : Document)]).get?
            d0.documents.value.docs.length).map Document.root) = _
        rw [List.get?_concat_length]
        rfl
    | inr hl =>
      obtain ⟨hfree, tr, -, hh, hd⟩ :=
        add_string_without_uri_ok_inv parse d0 d xml handle hl
      rw [hd, hh]
      rw [document_node_not_writing _ _
        (fun hx => BorrowState.noConfusion hx)]
      refine ⟨d0.xot.nodes.length, ?_⟩
      show PanicOr.ret (((d0.documents.value.docs ++
        [(⟨none, d0.xot.nodes.length⟩ : Document)]).get?
          d0.documents.value.docs.length).map Document.root) = _
      rw [List.get?_concat_length]
      rfl
  obtain ⟨n, hn⟩ := hres
  exact ⟨n, document_node_grows d _ handle n (grows_applyOps parse d ops) hn⟩

/-- C5: `document_node` is total and signals unknown handles by absence:
with no exclusive borrow outstanding, a handle outside the range ever
issued by this collection resolves to `.ret none` — a normal return, not an
error or a panic. -/
theorem C5_unknown_handle_absent (d : Documents) (handle : DocumentHandle)
    (hW : d.documents.borrowState ≠ .writing)
    (hunk : d.documents.value.docs.length ≤ handle) :
    d.document_node handle = .ret none := by
  rw [document_node_not_writing d handle hW]
  unfold Registry.get_node_by_handle
  rw [List.get?_len_le hunk]
  rfl

/-- C6: Arena node identifiers are stable across insertions: a node
identifier valid before any sequence of operations is still valid
afterwards and still designates the same tree slot. -/
theorem C6_node_ids_stable (parse : String → Option XmlTree) (d : Documents)
    (ops : List Op) (n : Nat) (hn : n < d.xot.nodes.length) :
    n < (d.applyOps parse ops).xot.nodes.length ∧
    (d.applyOps parse ops).xot.nodes.get? n = d.xot.nodes.get? n := by
  obtain ⟨-, -, ⟨ns, hns⟩⟩ := grows_applyOps parse d ops
  rw [hns]
  constructor
  · rw [List.length_append]
    omega
  · exact List.get?_append hn

/-- C7: Violating the registry's borrow discipline is fatal, not silent:
with any borrow outstanding, `add_string` and `add_string_without_uri`
abort with a panic (they need exclusive access), and with an exclusive
borrow outstanding `document_node` panics too, rather than returning or
mutating anything. -/
theorem C7_borrow_violation_fatal (parse : String → Option XmlTree)
    (d : Documents) (u xml : String) (handle : DocumentHandle)
    (hb : d.documents.borrowState ≠ .free) :
    d.add_string parse u xml = .panic ∧
    d.add_string_without_uri parse xml = .panic ∧
    (d.documents.borrowState = .writing → d.document_node handle = .panic) :=
  ⟨add_string_busy parse d u xml hb,
   add_string_without_uri_busy parse d xml hb,
   fun hw => document_node_writing d handle hw⟩

/-- C8: `new()` produces an empty collection: empty arena, empty registry,
`document_node` returns `.ret none` on every handle, and no URI is
bound. -/
theorem C8_new_is_empty :
    Documents.new.xot.nodes = [] ∧
    Documents.new.documents.value.docs = [] ∧
    (∀ handle : DocumentHandle,
      Documents.new.document_node handle = .ret none) ∧
    (∀ u : String, Documents.new.documents.value.findByUri u = none) := by
  refine ⟨rfl, rfl, fun handle => ?_, fun u => rfl⟩
  cases handle <;> rfl

/-- C9: Read accessors are effect-free: a completed `document_node`,
`documents()` or `xot()` call leaves the collection unchanged — every
previously issued handle resolves to the same node and every URI binding is
as before. -/
theorem C9_readers_effect_free (parse : String → Option XmlTree)
    (d d2 : Documents) (r : OpResult) (op : Op) (hr : op.reader)
    (hrun : d.run parse op = .ret (r, d2)) :
    d2 = d ∧
    (∀ handle, d2.document_node handle = d.document_node handle) ∧
    (∀ u, d2.documents.value.findByUri u = d.documents.value.findByUri u) ∧
    d2.xot = d.xot := by
  have hd : d2 = d := by
    cases op with
    | addString u xml => exact absurd hr (fun hx => hx)
    | addStringWithoutUri xml => exact absurd hr (fun hx => hx)
    | documentNode handle =>
      simp only [Documents.run] at hrun
      cases hc : d.document_node handle with
      | panic => rw [hc] at hrun; exact PanicOr.noConfusion hrun
      | ret n =>
        rw [hc] at hrun
        simp only [PanicOr.ret.injEq, Prod.mk.injEq] at hrun
        exact hrun.2.symm
    | documentsRead =>
      simp only [Documents.run, PanicOr.ret.injEq, Prod.mk.injEq] at hrun
      exact hrun.2.symm
    | xotRead =>
      simp only [Documents.run, PanicOr.ret.injEq, Prod.mk.injEq] at hrun
      exact hrun.2.symm
  subst hd
  exact ⟨rfl, fun _ => rfl, fun _ => rfl, rfl⟩

/-- Modelled from the spec: the state the spec describes for a
default-constructed collection — an empty `Xot` arena and a fresh empty
registry with no outstanding borrow. -/
def emptyCollectionSpec : Documents := ⟨⟨[]⟩, ⟨⟨[]⟩, .free⟩⟩

/-- C10: `Documents::default()` is equivalent to `Documents::new()`: both
are the identical empty state the spec describes, so every operation
behaves the same on either. -/
theorem C10_default_eq_new :
    Documents.default = Documents.new ∧
    Documents.default = emptyCollectionSpec ∧
    (∀ (parse : String → Option XmlTree) (u xml : String),
      Documents.default.add_string parse u xml =
        Documents.new.add_string parse u xml) ∧
    (∀ handle : DocumentHandle,
      Documents.default.document_node handle =
        Documents.new.document_node handle) :=
  ⟨rfl, rfl, fun _ _ _ => rfl, fun _ => rfl⟩

/-! ## Closed witnesses instantiating the claims -/

/-- C1 at a concrete input: URI "u", first text `<a/>`, second text
`<b/>`. -/
theorem C1_add_string_idempotent_witness :
    Documents.new.documents.value.findByUri "u" = none ∧
    Documents.new.add_string parseEx "u" "<a/>" =
      .ret (Documents.new.mkLoaded (some "u") (XmlTree.elem "a" []), .ok 0) ∧
    ((Documents.new.mkLoaded (some "u") (XmlTree.elem "a" [])).add_string
        parseEx "u" "<b/>" =
      .ret (Documents.new.mkLoaded (some "u") (XmlTree.elem "a" []), .ok 0) ∧
    ∃ tr n, parseEx "<a/>" = some tr ∧
      (Documents.new.mkLoaded (some "u")
        (XmlTree.elem "a" [])).document_node 0 = .ret (some n) ∧
      (Documents.new.mkLoaded (some "u")
        (XmlTree.elem "a" [])).xot.nodes.get? n = some tr) :=
  ⟨rfl, rfl,
   C1_add_string_idempotent parseEx parseEx Documents.new
     (Documents.new.mkLoaded (some "u") (XmlTree.elem "a" []))
     "u" "<a/>" "<b/>" 0 rfl rfl⟩

/-- C2 at a concrete input: two anonymous loads of `<a/>`. -/
theorem C2_anonymous_loads_distinct_witness :
    Documents.new.documents.borrowState = BorrowState.free ∧
    parseEx "<a/>" = some (XmlTree.elem "a" []) ∧
    ∃ d1 d2 h1 h2 n1 n2,
      Documents.new.add_string_without_uri parseEx "<a/>" =
        .ret (d1, .ok h1) ∧
      d1.add_string_without_uri parseEx "<a/>" = .ret (d2, .ok h2) ∧
      h1 ≠ h2 ∧
      d2.document_node h1 = .ret (some n1) ∧
      d2.document_node h2 = .ret (some n2) ∧
      n1 ≠ n2 ∧
      d2.xot.nodes.get? n1 = some (XmlTree.elem "a" []) ∧
      d2.xot.nodes.get? n2 = some (XmlTree.elem "a" []) :=
  ⟨rfl, rfl,
   C2_anonymous_loads_distinct parseEx Documents.new "<a/>"
     (XmlTree.elem "a" []) rfl rfl⟩

/-- C3 at a concrete input: a failed load of unparseable text under "u",
then the offered retry with good text. -/
theorem C3_failed_parse_atomic_witness :
    Documents.new.add_string parseEx "u" "nope" =
      .ret (Documents.new, .error .parseError) ∧
    (Documents.new = Documents.new ∧
     Documents.new.documents.value.findByUri "u" = none ∧
     ∀ good tr, parseEx good = some tr →
       Documents.new.add_string parseEx "u" good =
         .ret (Documents.new.mkLoaded (some "u") tr,
           .ok Documents.new.documents.value.docs.length) ∧
       (Documents.new.mkLoaded (some "u") tr).documents.value.findByUri "u" =
         some Documents.new.documents.value.docs.length) :=
  ⟨rfl,
   C3_failed_parse_atomic parseEx Documents.new Documents.new "u" "nope"
     .parseError rfl⟩

/-- C4 at a concrete input: the handle from loading `<a/>` under "u" still
resolves after a later anonymous load of `<b/>`. -/
theorem C4_issued_handles_stay_valid_witness :
    (Documents.new.add_string parseEx "u" "<a/>" =
        .ret (Documents.new.mkLoaded (some "u") (XmlTree.elem "a" []),
          .ok 0) ∨
      Documents.new.add_string_without_uri parseEx "<a/>" =
        .ret (Documents.new.mkLoaded (some "u") (XmlTree.elem "a" []),
          .ok 0)) ∧
    ∃ n, ((Documents.new.mkLoaded (some "u")
        (XmlTree.elem "a" [])).applyOps parseEx
          [Op.addStringWithoutUri "<b/>"]).document_node 0 = .ret (some n) :=
  ⟨Or.inl rfl,
   C4_issued_handles_stay_valid parseEx Documents.new
     (Documents.new.mkLoaded (some "u") (XmlTree.elem "a" [])) "u" "<a/>" 0
     [Op.addStringWithoutUri "<b/>"] (Or.inl rfl)⟩

/-- C5 at a concrete input: handle 3 was never issued by a fresh
collection. -/
theorem C5_unknown_handle_absent_witness :
    Documents.new.documents.borrowState ≠ BorrowState.writing ∧
    Documents.new.documents.value.docs.length ≤ 3 ∧
    Documents.new.document_node 3 = .ret none :=
  ⟨fun hx => BorrowState.noConfusion hx, by decide,
   C5_unknown_handle_absent Documents.new 3
     (fun hx => BorrowState.noConfusion hx) (by decide)⟩

/-- C6 at a concrete input: node 0 of a one-document collection survives a
further load under URI "v". -/
theorem C6_node_ids_stable_witness :
    0 < (Documents.new.mkLoaded none (XmlTree.elem "a" [])).xot.nodes.length ∧
    (0 < ((Documents.new.mkLoaded none
        (XmlTree.elem "a" [])).applyOps parseEx
          [Op.addString "v" "<b/>"]).xot.nodes.length ∧
      ((Documents.new.mkLoaded none
        (XmlTree.elem "a" [])).applyOps parseEx
          [Op.addString "v" "<b/>"]).xot.nodes.get? 0 =
        (Documents.new.mkLoaded none (XmlTree.elem "a" [])).xot.nodes.get? 0) :=
  ⟨by decide,
   C6_node_ids_stable parseEx (Documents.new.mkLoaded none (XmlTree.elem "a" []))
     [Op.addString "v" "<b/>"] 0 (by decide)⟩

/-- C7 at a concrete input: a collection whose registry cell holds an
outstanding exclusive borrow. -/
theorem C7_borrow_violation_fatal_witness :
    (⟨Xot.new, ⟨⟨[]⟩, .writing⟩⟩ : Documents).documents.borrowState ≠
      BorrowState.free ∧
    ((⟨Xot.new, ⟨⟨[]⟩, .writing⟩⟩ :
        Documents).add_string parseEx "u" "<a/>" = .panic ∧
     (⟨Xot.new, ⟨⟨[]⟩, .writing⟩⟩ :
        Documents).add_string_without_uri parseEx "<a/>" = .panic ∧
     ((⟨Xot.new, ⟨⟨[]⟩, .writing⟩⟩ :
        Documents).documents.borrowState = .writing →
       (⟨Xot.new, ⟨⟨[]⟩, .writing⟩⟩ :
        Documents).document_node 0 = .panic)) :=
  ⟨fun hx => BorrowState.noConfusion hx,
   C7_borrow_violation_fatal parseEx ⟨Xot.new, ⟨⟨[]⟩, .writing⟩⟩ "u" "<a/>" 0
     (fun hx => BorrowState.noConfusion hx)⟩

/-- C9 at a concrete input: a `documents()` read on a fresh collection. -/
theorem C9_readers_effect_free_witness :
    Op.reader Op.documentsRead ∧
    Documents.new.run parseEx Op.documentsRead =
      .ret (.documentsResult Documents.new.documents, Documents.new) ∧
    (Documents.new = Documents.new ∧
     (∀ handle, Documents.new.document_node handle =
       Documents.new.document_node handle) ∧
     (∀ u, Documents.new.documents.value.findByUri u =
       Documents.new.documents.value.findByUri u) ∧
     Documents.new.xot = Documents.new.xot) :=
  ⟨trivial, rfl,
   C9_readers_effect_free parseEx Documents.new Documents.new
     (.documentsResult Documents.new.documents) Op.documentsRead trivial rfl⟩

end Xee
